import Mathlib

/-!
Verification of the address-resolution and MOTD-rendering pipeline of a
Minecraft status API (a single Python source file).  The Python functions
`parse_address`, `resolve_srv_record`, `motd_to_html`, `get_java_status`
and `get_bedrock_status` are shallowly embedded as executable Lean
functions; external collaborators (DNS, the status-query client, base64)
are passed in as oracle parameters; a Python exception escaping a
function is modelled as `Except.error` / `Option.none`.
-/

set_option maxHeartbeats 1000000

namespace MCStatus

/-- Python `str.lower()` on one character, restricted to the characters
that matter here: ASCII letters are lowered, and U+212A (the Kelvin
sign, the one further character whose Python lowercase form lies in the
renderer's recognized code set) lowers to `k`.  Every other character is
left unchanged, which is observationally equivalent for the renderer
because such characters are never recognized as codes. -/
def pyLower (c : Char) : Char :=
  if c = 'K' then 'k' else c.toLower

/-- Result of the external `dns.resolver.resolve(qname, "SRV")` call:
a (possibly empty) record list, a no-answer/nxdomain outcome, or any
other DNS failure (timeout, network error, ...). -/
inductive DnsResult where
  | records : List (String × Int) → DnsResult
  | noRecord : DnsResult
  | transportError : DnsResult
deriving DecidableEq

/-- `resolve_srv_record(domain)` from the source: queries
`_minecraft._tcp.<domain>`, returns the first record's target and port,
treats NoAnswer/NXDOMAIN as `(None, None)`, and lets every other DNS
failure escape as an exception (`Except.error`). -/
def resolve_srv_record (dns : String → DnsResult) (domain : String) :
    Except Unit (Option String × Option Int) :=
  match dns ("_minecraft._tcp." ++ domain) with
  | DnsResult.records rs =>
    match rs with
    | [] => Except.ok (none, none)
    | (t, p) :: _ => Except.ok (some t, some p)
  | DnsResult.noRecord => Except.ok (none, none)
  | DnsResult.transportError => Except.error ()

/-- One maximal run of ASCII digits at the head of the list, plus the
rest.  This is how the greedy `\d` pieces of the source's regex consume
input.  Python's `\d` also matches non-ASCII Unicode decimal digits,
which are not modelled, so the regex model accepts a subset of what
`re.match` accepts: a match here is a match there, but not conversely.
Claims about the regex tier are stated on ASCII-digit inputs, where
the two coincide, or use only the success direction. -/
def takeDigits : List Char → List Char × List Char
  | [] => ([], [])
  | c :: rest =>
    if c.isDigit then ((c :: (takeDigits rest).1, (takeDigits rest).2))
    else ([], c :: rest)

/-- One `\d{1,3}\.` octet of the source's regex
`^(\d{1,3}\.\d{1,3}\.\d{1,3}\.\d{1,3})(?::(\d+))?$`: a run of one to
three digits followed by a literal dot.  Because the character after a
shorter digit prefix would still be a digit, greedy matching with
backtracking is equivalent to taking the whole digit run and checking
its length. -/
def octetDot (l : List Char) : Option (List Char × List Char) :=
  if 1 ≤ (takeDigits l).1.length ∧ (takeDigits l).1.length ≤ 3 then
    match (takeDigits l).2 with
    | '.' :: r2 => some ((takeDigits l).1, r2)
    | _ => none
  else none

/-- End-of-pattern test for Python's `$` (no MULTILINE): the end of the
string, or the position just before a single trailing newline. -/
def atEnd : List Char → Bool
  | [] => true
  | [c] => c = '\n'
  | _ :: _ :: _ => false

/-- The tail `\d{1,3}(?::(\d+))?$` of the source's regex: the last
octet, an optional colon-and-digits port group, then the end anchor. -/
def octetEnd (l : List Char) : Option (List Char × Option (List Char)) :=
  if 1 ≤ (takeDigits l).1.length ∧ (takeDigits l).1.length ≤ 3 then
    match (takeDigits l).2 with
    | ':' :: r2 =>
      if (takeDigits r2).1 ≠ [] ∧ atEnd (takeDigits r2).2 then
        some ((takeDigits l).1, some (takeDigits r2).1)
      else none
    | r2 => if atEnd r2 then some ((takeDigits l).1, none) else none
  else none

/-- `re.match` of the source's IPv4-with-optional-port regex:
on success returns (group 1 as characters, group 2 as characters or
`none`). -/
def ipPortMatch (l : List Char) : Option (List Char × Option (List Char)) :=
  match octetDot l with
  | none => none
  | some (o1, r1) =>
    match octetDot r1 with
    | none => none
    | some (o2, r2) =>
      match octetDot r2 with
      | none => none
      | some (o3, r3) =>
        match octetEnd r3 with
        | none => none
        | some (o4, port) => some (o1 ++ '.' :: (o2 ++ '.' :: (o3 ++ '.' :: o4)), port)

/-- Numeric value of a run of decimal digit characters, as produced by
Python's `int` on a digit string. -/
def digitsVal (l : List Char) : Nat :=
  l.foldl (fun n c => 10 * n + (c.toNat - 48)) 0

/-- Python's `int()` builtin applied to a string: an optional sign
followed by a nonempty ASCII digit run; anything else raises
`ValueError` (`none`).  Whitespace padding, underscore separators and
non-ASCII digits accepted by CPython are not modelled, so this is an
under-approximation of `int()`: whenever it returns a value, CPython
returns the same value, but it reports `none` on some strings (such as
`"7\n"` or `" 123"`) that CPython accepts.  Theorems therefore only
use its success direction, never treat its `none` as a proof that the
program raises. -/
def pyInt (l : List Char) : Option Int :=
  match l with
  | [] => none
  | '-' :: ds =>
    if ds ≠ [] ∧ (∀ c ∈ ds, c.isDigit) then some (-(digitsVal ds : Int)) else none
  | '+' :: ds =>
    if ds ≠ [] ∧ (∀ c ∈ ds, c.isDigit) then some (digitsVal ds : Int) else none
  | ds =>
    if ∀ c ∈ ds, c.isDigit then some (digitsVal ds : Int) else none

/-- Python `str.split(sep)` for a one-character separator. -/
def splitOnChar (sep : Char) : List Char → List (List Char)
  | [] => [[]]
  | c :: rest =>
    if c = sep then
      [] :: splitOnChar sep rest
    else
      match splitOnChar sep rest with
      | p :: ps => (c :: p) :: ps
      | [] => [[c]]

/-- The guard `":" in address and address[-1] != ":"` of the source's
second classification tier. -/
def hasExplicitColon (address : String) : Bool :=
  address.data.contains ':' && !(address.data.getLast? == some ':')

/-- The tuple returned by `parse_address`:
`(host, port-or-None, SRVtarget-or-None, SRVport-or-None)`. -/
structure AddressSpec where
  host : String
  port : Option Int
  srvTarget : Option String
  srvPort : Option Int
deriving DecidableEq

/-- `parse_address(address)` from the source.  Tier 1: the IPv4 regex
(group 1 as host, group 2 parsed as the port when present).  Tier 2: a
colon that is not the final character; the address is split on every
colon and `int(parts[1])` may raise `ValueError` (`Except.error`).
Tier 3: SRV discovery; a DNS transport failure escapes.  The
second-tier fallback arm for a colon-free split is unreachable (the
guard guarantees at least two parts) and is given the same escaping
behaviour as Python's `IndexError` would have. -/
def parse_address (dns : String → DnsResult) (address : String) :
    Except Unit AddressSpec :=
  match ipPortMatch address.data with
  | some (hostChars, portChars) =>
    Except.ok ⟨String.mk hostChars, portChars.map (fun p => (digitsVal p : Int)), none, none⟩
  | none =>
    if hasExplicitColon address then
      match splitOnChar ':' address.data with
      | p0 :: p1 :: _ =>
        (match pyInt p1 with
         | some n => Except.ok ⟨String.mk p0, some n, none, none⟩
         | none => Except.error ())
      | _ => Except.error ()
    else
      match resolve_srv_record dns address with
      | Except.ok (t, p) => Except.ok ⟨address, none, t, p⟩
      | Except.error e => Except.error e

/-! ## MOTD renderer -/

/-- The `colors` table of `motd_to_html`: Minecraft color code to the
opening markup the source appends. -/
def colorsMap : Char → Option String
  | '0' => some "<span style=\x27color:#000000!important\x27>"
  | '1' => some "<span style=\x27color:#0000AA!important\x27>"
  | '2' => some "<span style=\x27color:#00AA00!important\x27>"
  | '3' => some "<span style=\x27color:#00AAAA!important\x27>"
  | '4' => some "<span style=\x27color:#AA0000!important\x27>"
  | '5' => some "<span style=\x27color:#AA00AA!important\x27>"
  | '6' => some "<span style=\x27color:#FFAA00!important\x27>"
  | '7' => some "<span style=\x27color:#AAAAAA!important\x27>"
  | '8' => some "<span style=\x27color:#555555!important\x27>"
  | '9' => some "<span style=\x27color:#5555FF!important\x27>"
  | 'a' => some "<span style=\x27color:#55FF55!important\x27>"
  | 'b' => some "<span style=\x27color:#55FFFF!important\x27>"
  | 'c' => some "<span style=\x27color:#FF5555!important\x27>"
  | 'd' => some "<span style=\x27color:#FF55FF!important\x27>"
  | 'e' => some "<span style=\x27color:#FFFF55!important\x27>"
  | 'f' => some "<span style=\x27color:#FFFFFF!important\x27>"
  | _ => none

/-- The `styles` table of `motd_to_html`: style code to its CSS (or, for
`k`, attribute) fragment. -/
def stylesMap : Char → Option String
  | 'l' => some "font-weight:bold;"
  | 'o' => some "font-style:italic;"
  | 'n' => some "text-decoration:underline;"
  | 'm' => some "text-decoration:line-through;"
  | 'k' => some "class=\x27motd-obfuscated\x27"
  | _ => none

/-- The opening markup appended for a style code: `k` is spliced as a
bare attribute, the rest inside `style='...'`. -/
def styleOpen (code : Char) (style : String) : String :=
  if code = 'k' then "<span " ++ style ++ ">" else "<span style=\x27" ++ style ++ "\x27>"

/-- One string fragment appended to `current_html` by the source: an
opening markup element, the closing element `</span>`, or a literal
character of the input. -/
inductive Chunk where
  | tagOpen : String → Chunk
  | tagClose : Chunk
  | lit : Char → Chunk
deriving DecidableEq

/-- The characters a chunk contributes to `current_html`. -/
def renderChunk : Chunk → List Char
  | Chunk.tagOpen t => t.data
  | Chunk.tagClose => "</span>".data
  | Chunk.lit c => [c]

/-- The fragments emitted when the active color element, if any, is
closed. -/
def closeColor : Option Char → List Chunk
  | some _ => [Chunk.tagClose]
  | none => []

/-- The scanning loop of `motd_to_html`, with `current_html` kept as the
sequence of appended fragments.  State: the input from position `i` on,
`current_color` (empty string in Python becomes `none`), and
`current_styles` (a stack of pushed `</span>` closers; push is `cons`,
`pop` emits the head, so LIFO order is preserved).  A control character
in final position makes the source read `motd[i + 1]` out of range, a
`IndexError`; that is the `none` outcome.  At end of input the source
closes remaining style spans and the color span. -/
def motd_scan : List Char → Option Char → List Chunk → Option (List Chunk)
  | [], color, st => some (st ++ closeColor color)
  | ['§'], _, _ => none
  | '§' :: c :: rest, color, st =>
    (match colorsMap (pyLower c) with
     | some tag =>
       if color = some (pyLower c) then
         (motd_scan rest color []).map (fun cs => st ++ cs)
       else
         (motd_scan rest (some (pyLower c)) []).map
           (fun cs => st ++ closeColor color ++ (Chunk.tagOpen tag :: cs))
     | none =>
       match stylesMap (pyLower c) with
       | some sty =>
         (motd_scan rest color (Chunk.tagClose :: st)).map
           (fun cs => Chunk.tagOpen (styleOpen (pyLower c) sty) :: cs)
       | none =>
         if pyLower c = 'r' then
           (motd_scan rest none []).map (fun cs => st ++ closeColor color ++ cs)
         else
           (motd_scan (c :: rest) color st).map (fun cs => Chunk.lit '§' :: cs))
  | c :: rest, color, st =>
    (motd_scan rest color st).map (fun cs => Chunk.lit c :: cs)

/-- Python `current_html.replace("\n", "<br>")`: every newline becomes a
line-break element (a one-character pattern, so occurrences cannot
overlap). -/
def nlToBr : List Char → List Char
  | [] => []
  | '\n' :: rest => '<' :: 'b' :: 'r' :: '>' :: nlToBr rest
  | c :: rest => c :: nlToBr rest

/-- `motd_to_html(motd)` from the source: run the scanner from an empty
state, concatenate the appended fragments, then replace newlines with
`<br>`.  `none` is the `IndexError` raised on a trailing bare control
character. -/
def motd_to_html (motd : String) : Option String :=
  (motd_scan motd.data none []).map
    (fun cs => String.mk (nlToBr (cs.map renderChunk).flatten))

/-- The `clean` derivation
`re.sub(r"§.", "", description)` from `get_java_status`: the
regex scan removes a section sign together with its follower exactly
when the follower is not a newline (`.` does not match `\n` without
DOTALL); at any other position one character is copied. -/
def motdClean : List Char → List Char
  | '§' :: c :: rest =>
    if c = '\n' then '§' :: motdClean (c :: rest) else motdClean rest
  | c :: rest => c :: motdClean rest
  | [] => []

/-! ## Status aggregators -/

/-- The connection target `f"{address}:{port}" if port else address`
passed to the status-client lookup; note Python truthiness makes port
`0` fall back to the bare host. -/
def targetOf (host : String) (port : Option Int) : String :=
  match port with
  | some p => if p ≠ 0 then host ++ ":" ++ toString p else host
  | none => host

/-- The fields of the external Java status report that the source
reads. -/
structure JavaStatus where
  description : String
  versionName : String
  protocol : Int
  playersOnline : Int
  playersMax : Int
  sample : Option (List String)
  icon : Option String
deriving DecidableEq

/-- The fields of the external Bedrock status report that the source
reads. -/
structure BedrockStatus where
  versionName : String
  players : List String
  playersMax : Int
  motd : String
deriving DecidableEq

/-- The dictionary returned by `get_java_status`: the `online=True`
shape with all fields, or the `online=False` shape carrying exactly
host, port and the fixed `online`/`type` entries. -/
inductive JavaResponse where
  | onlineR
      (host : String) (port : Int)
      (srvTarget : Option String) (srvPort : Option Int)
      (versionName : String) (protocol : Int)
      (playersOnline : Int) (playersMax : Int) (playerList : List String)
      (motdRaw : String) (motdCleanS : String) (motdHtml : String)
      (icon : Option String) : JavaResponse
  | offlineR (host : String) (port : Option Int) : JavaResponse
deriving DecidableEq

/-- The dictionary returned by `get_bedrock_status` (no port
defaulting, no icon, raw motd passthrough). -/
inductive BedrockResponse where
  | onlineR
      (host : String) (port : Option Int)
      (srvTarget : Option String) (srvPort : Option Int)
      (version : String)
      (playersOnline : Int) (playersMax : Int) (playerList : List String)
      (motd : String) : BedrockResponse
  | offlineR (host : String) (port : Option Int) : BedrockResponse
deriving DecidableEq

/-- An exception escaping an aggregator.  The only way one escapes is
the `except` handler itself faulting: it builds the offline dictionary
from the local `port`, which was never assigned when `parse_address`
raised, so Python raises `UnboundLocalError` inside the handler and the
route turns it into HTTP 500. -/
inductive Fault where
  | unboundLocalPort : Fault
deriving DecidableEq

/-- The icon handling of `get_java_status`:
`java_status.icon.split(",")[1]` (an `IndexError` when there is no
comma) followed by a base64 decode/encode round trip (which raises on a
malformed payload).  The base64 pair is an oracle `b64`; `none` for the
whole step means an exception reached the `except` handler. -/
def iconStep (b64 : String → Option String) (icon : Option String) :
    Option (Option String) :=
  match icon with
  | none => some none
  | some ic =>
    if ic = "" then some none
    else
      match (splitOnChar ',' ic.data).get? 1 with
      | none => none
      | some seg =>
        match b64 (String.mk seg) with
        | none => none
        | some enc => some (some enc)

/-- `get_java_status(address)` from the source.  `query` is the
external `JavaServer.lookup(...).status()` pair (`none` for any
exception it raises).  After a successful parse, any exception from the
query, the icon handling or the MOTD renderer is caught and produces
the offline dictionary with the already-parsed host and the
still-undefaulted port; when `parse_address` itself raises, the handler
faults on the unbound `port` local. -/
def get_java_status (dns : String → DnsResult) (query : String → Option JavaStatus)
    (b64 : String → Option String) (address : String) :
    Except Fault JavaResponse :=
  match parse_address dns address with
  | Except.error _ => Except.error Fault.unboundLocalPort
  | Except.ok spec =>
    match query (targetOf spec.host spec.port) with
    | none => Except.ok (JavaResponse.offlineR spec.host spec.port)
    | some st =>
      match iconStep b64 st.icon with
      | none => Except.ok (JavaResponse.offlineR spec.host spec.port)
      | some javaIcon =>
        match motd_to_html st.description with
        | none => Except.ok (JavaResponse.offlineR spec.host spec.port)
        | some html =>
          Except.ok (JavaResponse.onlineR spec.host (spec.port.getD 25565)
            spec.srvTarget spec.srvPort st.versionName st.protocol
            st.playersOnline st.playersMax (st.sample.getD [])
            st.description (String.mk (motdClean st.description.data)) html
            (match javaIcon with
             | some s => if s ≠ "" then some ("data:image/png;base64," ++ s) else none
             | none => none))

/-- `get_bedrock_status(address)` from the source: same structure, no
icon or MOTD processing, the player-list length used as the online
count. -/
def get_bedrock_status (dns : String → DnsResult)
    (query : String → Option BedrockStatus) (address : String) :
    Except Fault BedrockResponse :=
  match parse_address dns address with
  | Except.error _ => Except.error Fault.unboundLocalPort
  | Except.ok spec =>
    match query (targetOf spec.host spec.port) with
    | none => Except.ok (BedrockResponse.offlineR spec.host spec.port)
    | some st =>
      Except.ok (BedrockResponse.onlineR spec.host spec.port
        spec.srvTarget spec.srvPort st.versionName
        (st.players.length : Int) st.playersMax st.players st.motd)

/-! ## Auxiliary notions used to state the claims -/

/-- A chunk that opens a markup element. -/
def isOpenC : Chunk → Bool
  | Chunk.tagOpen _ => true
  | _ => false

/-- A chunk that closes a markup element. -/
def isCloseC : Chunk → Bool
  | Chunk.tagClose => true
  | _ => false

/-- Modelled from the spec: the clean derivation exactly as the claim
words it — strip every two-character sequence consisting of the section
sign followed by any one character, newline included.  Compared against
the source's `motdClean`. -/
def stripAllPairs : List Char → List Char
  | '§' :: _ :: rest => stripAllPairs rest
  | c :: rest => c :: stripAllPairs rest
  | [] => []

/-- The clean derivation as amended: a section sign and its follower
are removed exactly when the follower is not a newline; a section sign
followed by a newline, and a trailing section sign, stay in the
output. -/
def stripPairsNonNl : List Char → List Char
  | '§' :: c :: rest =>
    if c ≠ '\n' then stripPairsNonNl rest else '§' :: stripPairsNonNl (c :: rest)
  | c :: rest => c :: stripPairsNonNl rest
  | [] => []

/-- An octet group of the claims about literal IPv4 addresses: one to
three characters, all ASCII digits. -/
abbrev okOctet (o : List Char) : Prop :=
  o ≠ [] ∧ o.length ≤ 3 ∧ ∀ c ∈ o, c.isDigit

/-- The characters of the literal address `a.b.c.d`. -/
def ipJoin (a b c d : List Char) : List Char :=
  a ++ '.' :: (b ++ '.' :: (c ++ '.' :: d))

/-- The characters of the literal address `a.b.c.d:p`. -/
def ipJoinPort (a b c d p : List Char) : List Char :=
  a ++ '.' :: (b ++ '.' :: (c ++ '.' :: (d ++ ':' :: p)))

/-- The condition under which the explicit-port tier of `parse_address`
raises: `int(parts[1])` fails on the text between the first and second
colon (the degenerate no-second-part shape also escapes, as Python's
`parts[1]` lookup would). -/
def colonPortRaises (address : String) : Prop :=
  match splitOnChar ':' address.data with
  | _ :: p1 :: _ => pyInt p1 = none
  | _ => True

/-! ## Helper lemmas -/

theorem takeDigits_append (ds r : List Char) (hds : ∀ c ∈ ds, c.isDigit)
    (hr : ∀ c, r.head? = some c → c.isDigit = false) :
    takeDigits (ds ++ r) = (ds, r) := by
  induction ds with
  | nil =>
    cases r with
    | nil => rfl
    | cons c r2 =>
      have hc : c.isDigit = false := hr c rfl
      simp [takeDigits, hc]
  | cons d ds ih =>
    have hd : d.isDigit := hds d (by simp)
    have ih2 := ih (fun c hc => hds c (by simp [hc]))
    simp [takeDigits, hd, ih2]

theorem takeDigits_decomp (l : List Char) :
    (takeDigits l).1 ++ (takeDigits l).2 = l ∧ ∀ c ∈ (takeDigits l).1, c.isDigit := by
  induction l with
  | nil => simp [takeDigits]
  | cons c rest ih =>
    by_cases h : c.isDigit
    · simp only [takeDigits, h, if_pos]
      refine ⟨by simp [ih.1], ?_⟩
      intro x hx
      rcases List.mem_cons.mp hx with h1 | h2
      · exact h1 ▸ h
      · exact ih.2 x h2
    · simp [takeDigits, h]

theorem atEnd_cases (l : List Char) (h : atEnd l = true) : l = [] ∨ l = ['\n'] := by
  match l with
  | [] => exact Or.inl rfl
  | [c] =>
    simp only [atEnd, decide_eq_true_eq] at h
    exact Or.inr (by rw [h])
  | _ :: _ :: _ => simp [atEnd] at h

theorem getLast_digit (o : List Char) (h : o ≠ []) (hd : ∀ c ∈ o, c.isDigit) :
    ∃ c, o.getLast? = some c ∧ c.isDigit :=
  ⟨o.getLast h, List.getLast?_eq_getLast_of_ne_nil h, hd _ (List.getLast_mem h)⟩

/-! ## Claims -/

/-- C1.  The claim says the renderer never faults and emits a trailing
bare control character literally.  The code instead reads `motd[i + 1]`
unconditionally and raises `IndexError` on `"test§"` (first conjunct);
a control character followed by an unrecognized code character is
indeed emitted literally (second conjunct), so only the trailing case
diverges. -/
theorem C1_trailing_control :
    motd_to_html "test§" = none ∧ motd_to_html "a§zb" = some "a§zb" :=
  ⟨rfl, rfl⟩

/-- C2.  The claim says every resolution or query failure is converted
into an `online=false` response and never reaches the HTTP layer.  When
`parse_address` itself raises (address `"host:abc"`, a `ValueError`
from `int("abc")`), the `except` handler references the local `port`
that was never assigned, so the aggregator itself raises
(`UnboundLocalError`) for both editions and the route returns HTTP 500
(first two conjuncts).  A failure of the external query after a
successful parse is caught and produces the offline shape carrying
exactly online/host/port/type (last two conjuncts). -/
theorem C2_aggregator_fault :
    get_java_status (fun _ => DnsResult.noRecord) (fun _ => none) (fun _ => none)
        "host:abc" = Except.error Fault.unboundLocalPort ∧
    get_bedrock_status (fun _ => DnsResult.noRecord) (fun _ => none)
        "host:abc" = Except.error Fault.unboundLocalPort ∧
    get_java_status (fun _ => DnsResult.noRecord) (fun _ => none) (fun _ => none)
        "mc.example.com" = Except.ok (JavaResponse.offlineR "mc.example.com" none) ∧
    get_bedrock_status (fun _ => DnsResult.noRecord) (fun _ => none)
        "mc.example.com" = Except.ok (BedrockResponse.offlineR "mc.example.com" none) :=
  ⟨rfl, rfl, rfl, rfl⟩

/-- C3, counterexample.  The claim says the clean derivation strips the
section sign together with any one following character, newline
included.  The source's regex `§.` does not match a newline
follower, so on `"§\n"` the code keeps both characters while the
claimed derivation removes them. -/
theorem C3_counterexample :
    motdClean ("§\n".data) ≠ stripAllPairs ("§\n".data) := by
  decide

/-- C3, amended.  The clean derivation equals the input with every
section-sign pair removed whose follower is not a newline; a section
sign followed by a newline (and a trailing one) survives, so such
residual control characters can remain. -/
theorem C3_amended_clean (l : List Char) : motdClean l = stripPairsNonNl l := by
  induction l using motdClean.induct with
  | case1 rest ih =>
    rw [motdClean.eq_1, stripPairsNonNl.eq_1]
    simp [ih]
  | case2 c rest h ih =>
    rw [motdClean.eq_1, stripPairsNonNl.eq_1]
    simp [h, ih]
  | case3 c rest hx ih =>
    rw [motdClean.eq_2 c rest hx, stripPairsNonNl.eq_2 c rest hx, ih]
  | case4 => rfl

/-- C7, counterexample.  The claim says the parser yields a result for
every input string, naming `"host:abc"`; the code's explicit-port tier
calls `int("abc")`, which raises `ValueError`, so the parser faults. -/
theorem C7_counterexample :
    parse_address (fun _ => DnsResult.noRecord) "host:abc" = Except.error () :=
  rfl

theorem scan_color_step (c : Char) (rest : List Char) (color : Option Char) (st : List Chunk)
    (tag : String) (hcm : colorsMap (pyLower c) = some tag) :
    motd_scan ('§' :: c :: rest) color st
      = if color = some (pyLower c) then (motd_scan rest color []).map (fun cs => st ++ cs)
        else (motd_scan rest (some (pyLower c)) []).map
            (fun cs => st ++ closeColor color ++ (Chunk.tagOpen tag :: cs)) := by
  rw [motd_scan.eq_3, hcm]

theorem scan_style_step (c : Char) (rest : List Char) (color : Option Char) (st : List Chunk)
    (sty : String) (hcm : colorsMap (pyLower c) = none)
    (hsm : stylesMap (pyLower c) = some sty) :
    motd_scan ('§' :: c :: rest) color st
      = (motd_scan rest color (Chunk.tagClose :: st)).map
          (fun cs => Chunk.tagOpen (styleOpen (pyLower c) sty) :: cs) := by
  rw [motd_scan.eq_3, hcm, hsm]

theorem scan_reset_step (c : Char) (rest : List Char) (color : Option Char) (st : List Chunk)
    (hcm : colorsMap (pyLower c) = none)
    (hsm : stylesMap (pyLower c) = none) (hr : pyLower c = 'r') :
    motd_scan ('§' :: c :: rest) color st
      = (motd_scan rest none []).map (fun cs => st ++ closeColor color ++ cs) := by
  rw [motd_scan.eq_3, hcm, hsm]
  simp [hr]

theorem scan_fall_step (c : Char) (rest : List Char) (color : Option Char) (st : List Chunk)
    (hcm : colorsMap (pyLower c) = none)
    (hsm : stylesMap (pyLower c) = none) (hr : pyLower c ≠ 'r') :
    motd_scan ('§' :: c :: rest) color st
      = (motd_scan (c :: rest) color st).map (fun cs => Chunk.lit '§' :: cs) := by
  rw [motd_scan.eq_3, hcm, hsm]
  simp [hr]

theorem colors_styles_disjoint (d : Char) (sty : String) (hsm : stylesMap d = some sty) :
    colorsMap d = none := by
  revert hsm
  unfold stylesMap
  split <;> intro hsm <;> simp_all [colorsMap]

theorem scan_balance (l : List Char) (color : Option Char) (st : List Chunk) :
    (∀ x ∈ st, x = Chunk.tagClose) → ∀ cs, motd_scan l color st = some cs →
      cs.countP isCloseC = cs.countP isOpenC + st.length + (closeColor color).length := by
  induction l, color, st using motd_scan.induct with
  | case1 color st =>
    intro hst cs h
    rw [motd_scan.eq_1, Option.some.injEq] at h
    subst h
    have h1 : st.countP isCloseC = st.length :=
      List.countP_eq_length.mpr (fun a ha => by rw [hst a ha]; rfl)
    have h2 : st.countP isOpenC = 0 :=
      List.countP_eq_zero.mpr (fun a ha => by rw [hst a ha]; simp [isOpenC])
    cases color <;>
      simp [List.countP_append, closeColor, isCloseC, isOpenC, h1, h2]
  | case2 x x1 =>
    intro _ cs h
    rw [motd_scan.eq_2] at h
    exact absurd h (by simp)
  | case3 c rest st tag hcm ih =>
    intro hst cs h
    rw [scan_color_step c rest _ st tag hcm, if_pos rfl] at h
    rcases Option.map_eq_some'.mp h with ⟨cs1, hcs1, rfl⟩
    have hbal := ih (by simp) cs1 hcs1
    have h1 : st.countP isCloseC = st.length :=
      List.countP_eq_length.mpr (fun a ha => by rw [hst a ha]; rfl)
    have h2 : st.countP isOpenC = 0 :=
      List.countP_eq_zero.mpr (fun a ha => by rw [hst a ha]; simp [isOpenC])
    simp [List.countP_append, closeColor, h1, h2] at hbal ⊢
    all_goals omega
  | case4 c rest color st tag hcm hne ih =>
    intro hst cs h
    rw [scan_color_step c rest color st tag hcm, if_neg hne] at h
    rcases Option.map_eq_some'.mp h with ⟨cs1, hcs1, rfl⟩
    have hbal := ih (by simp) cs1 hcs1
    have h1 : st.countP isCloseC = st.length :=
      List.countP_eq_length.mpr (fun a ha => by rw [hst a ha]; rfl)
    have h2 : st.countP isOpenC = 0 :=
      List.countP_eq_zero.mpr (fun a ha => by rw [hst a ha]; simp [isOpenC])
    cases color <;>
      · simp [List.countP_append, List.countP_cons, closeColor, isCloseC, isOpenC,
          h1, h2] at hbal ⊢
        all_goals omega
  | case5 c rest color st hcm sty hsm ih =>
    intro hst cs h
    rw [scan_style_step c rest color st sty hcm hsm] at h
    rcases Option.map_eq_some'.mp h with ⟨cs1, hcs1, rfl⟩
    have hst2 : ∀ x ∈ Chunk.tagClose :: st, x = Chunk.tagClose := by
      intro x hx
      rcases List.mem_cons.mp hx with h1 | h2
      · exact h1
      · exact hst x h2
    have hbal := ih hst2 cs1 hcs1
    simp [List.countP_cons, isCloseC, isOpenC] at hbal ⊢
    all_goals omega
  | case6 c rest color st hcm hsm hr ih =>
    intro hst cs h
    rw [scan_reset_step c rest color st hcm hsm hr] at h
    rcases Option.map_eq_some'.mp h with ⟨cs1, hcs1, rfl⟩
    have hbal := ih (by simp) cs1 hcs1
    have h1 : st.countP isCloseC = st.length :=
      List.countP_eq_length.mpr (fun a ha => by rw [hst a ha]; rfl)
    have h2 : st.countP isOpenC = 0 :=
      List.countP_eq_zero.mpr (fun a ha => by rw [hst a ha]; simp [isOpenC])
    cases color <;>
      · simp [List.countP_append, List.countP_cons, closeColor, isCloseC, isOpenC,
          h1, h2] at hbal ⊢
        all_goals omega
  | case7 c rest color st hcm hsm hr ih =>
    intro hst cs h
    rw [scan_fall_step c rest color st hcm hsm hr] at h
    rcases Option.map_eq_some'.mp h with ⟨cs1, hcs1, rfl⟩
    have hbal := ih hst cs1 hcs1
    simp [List.countP_cons, isCloseC, isOpenC] at hbal ⊢
    all_goals omega
  | case8 c rest color st hx1 hx2 ih =>
    intro hst cs h
    rw [motd_scan.eq_4 _ _ c rest hx1 hx2] at h
    rcases Option.map_eq_some'.mp h with ⟨cs1, hcs1, rfl⟩
    have hbal := ih hst cs1 hcs1
    simp [List.countP_cons, isCloseC, isOpenC] at hbal ⊢
    all_goals omega

/-- C4.  Whenever the scanner produces output (it faults on a trailing
bare control character, in which case there is no html output at all),
the fragments it appended open and close equally many markup elements:
every color or style element it opened is eventually closed, whether by
a later code, a reset, or the end-of-scan cleanup. -/
theorem C4_balanced (m : String) (cs : List Chunk)
    (h : motd_scan m.data none [] = some cs) :
    cs.countP isCloseC = cs.countP isOpenC := by
  have hb := scan_balance m.data none [] (by simp) cs h
  simpa [closeColor] using hb

theorem C4_balanced_witness :
    List.countP isCloseC [Chunk.tagOpen "<span style=\x27color:#55FF55!important\x27>",
        Chunk.lit 'H', Chunk.lit 'i', Chunk.tagClose]
      = List.countP isOpenC [Chunk.tagOpen "<span style=\x27color:#55FF55!important\x27>",
        Chunk.lit 'H', Chunk.lit 'i', Chunk.tagClose] :=
  C4_balanced "§aHi" _ rfl

/-- C5.  On a color code the scanner first emits every pending style
closer (the stack `st`, popped head first, i.e. LIFO); when the new
color equals the active one it opens nothing further (first conjunct),
and only when it differs does it close the previous color and open one
new color element (second conjunct).  Concretely, `"§a§aHi"` produces a
single color element wrapping the text (third conjunct). -/
theorem C5_color_dedup :
    (∀ (c : Char) (rest : List Char) (st : List Chunk) (tag : String),
        colorsMap (pyLower c) = some tag →
        motd_scan ('§' :: c :: rest) (some (pyLower c)) st
          = (motd_scan rest (some (pyLower c)) []).map (fun cs => st ++ cs)) ∧
    (∀ (c : Char) (rest : List Char) (color : Option Char) (st : List Chunk) (tag : String),
        colorsMap (pyLower c) = some tag → color ≠ some (pyLower c) →
        motd_scan ('§' :: c :: rest) color st
          = (motd_scan rest (some (pyLower c)) []).map
              (fun cs => st ++ closeColor color ++ (Chunk.tagOpen tag :: cs))) ∧
    motd_to_html "§a§aHi"
      = some "<span style=\x27color:#55FF55!important\x27>Hi</span>" := by
  refine ⟨?_, ?_, rfl⟩
  · intro c rest st tag hcm
    rw [scan_color_step c rest _ st tag hcm, if_pos rfl]
  · intro c rest color st tag hcm hne
    rw [scan_color_step c rest color st tag hcm, if_neg hne]

theorem C5_color_dedup_witness :
    motd_scan ('§' :: 'a' :: "Hi".data) (some (pyLower 'a')) [Chunk.tagClose]
      = (motd_scan "Hi".data (some (pyLower 'a')) []).map
          (fun cs => [Chunk.tagClose] ++ cs) :=
  C5_color_dedup.1 'a' "Hi".data [Chunk.tagClose]
    "<span style=\x27color:#55FF55!important\x27>" rfl

/-- C10.  The scanner lowercases the code character before every
lookup, so classification is case-insensitive for all three code
kinds: color codes (first conjunct), the five style codes (second
conjunct) and reset (third conjunct) all branch on `pyLower c` only,
and concretely `"§LHi"` renders exactly as `"§lHi"` (fourth
conjunct). -/
theorem C10_case_insensitive :
    (∀ (c : Char) (rest : List Char) (color : Option Char) (st : List Chunk) (tag : String),
        colorsMap (pyLower c) = some tag →
        motd_scan ('§' :: c :: rest) color st
          = if color = some (pyLower c) then
              (motd_scan rest color []).map (fun cs => st ++ cs)
            else
              (motd_scan rest (some (pyLower c)) []).map
                (fun cs => st ++ closeColor color ++ (Chunk.tagOpen tag :: cs))) ∧
    (∀ (c : Char) (rest : List Char) (color : Option Char) (st : List Chunk) (sty : String),
        stylesMap (pyLower c) = some sty →
        motd_scan ('§' :: c :: rest) color st
          = (motd_scan rest color (Chunk.tagClose :: st)).map
              (fun cs => Chunk.tagOpen (styleOpen (pyLower c) sty) :: cs)) ∧
    (∀ (c : Char) (rest : List Char) (color : Option Char) (st : List Chunk),
        colorsMap (pyLower c) = none → stylesMap (pyLower c) = none → pyLower c = 'r' →
        motd_scan ('§' :: c :: rest) color st
          = (motd_scan rest none []).map (fun cs => st ++ closeColor color ++ cs)) ∧
    motd_to_html "§LHi" = motd_to_html "§lHi" := by
  refine ⟨?_, ?_, ?_, rfl⟩
  · intro c rest color st tag hcm
    exact scan_color_step c rest color st tag hcm
  · intro c rest color st sty hsm
    exact scan_style_step c rest color st sty (colors_styles_disjoint _ _ hsm) hsm
  · intro c rest color st hcm hsm hr
    exact scan_reset_step c rest color st hcm hsm hr

theorem C10_case_insensitive_witness :
    motd_scan ('§' :: 'L' :: "Hi".data) none []
      = (motd_scan "Hi".data none [Chunk.tagClose]).map
          (fun cs => Chunk.tagOpen (styleOpen (pyLower 'L') "font-weight:bold;") :: cs) :=
  C10_case_insensitive.2.1 'L' "Hi".data none [] "font-weight:bold;" rfl

theorem octetDot_append (o r : List Char) (h1 : o ≠ []) (h2 : o.length ≤ 3)
    (h3 : ∀ c ∈ o, c.isDigit) : octetDot (o ++ '.' :: r) = some (o, r) := by
  have ht : takeDigits (o ++ '.' :: r) = (o, '.' :: r) :=
    takeDigits_append o ('.' :: r) h3
      (by intro c hc; simp at hc; subst hc; rfl)
  have h0 : 1 ≤ o.length := List.length_pos.mpr h1
  simp [octetDot, ht, h0, h2]

theorem takeDigits_all (o : List Char) (h3 : ∀ c ∈ o, c.isDigit) :
    takeDigits o = (o, []) := by
  have ht := takeDigits_append o [] h3 (by intro c hc; simp at hc)
  rwa [List.append_nil] at ht

theorem octetEnd_noport (o : List Char) (h1 : o ≠ []) (h2 : o.length ≤ 3)
    (h3 : ∀ c ∈ o, c.isDigit) : octetEnd o = some (o, none) := by
  have h0 : 1 ≤ o.length := List.length_pos.mpr h1
  simp [octetEnd, takeDigits_all o h3, h0, h2, atEnd]

theorem octetEnd_port (o p : List Char) (h1 : o ≠ []) (h2 : o.length ≤ 3)
    (h3 : ∀ c ∈ o, c.isDigit) (hp1 : p ≠ []) (hp3 : ∀ c ∈ p, c.isDigit) :
    octetEnd (o ++ ':' :: p) = some (o, some p) := by
  have ht : takeDigits (o ++ ':' :: p) = (o, ':' :: p) :=
    takeDigits_append o (':' :: p) h3
      (by intro c hc; simp at hc; subst hc; rfl)
  have h0 : 1 ≤ o.length := List.length_pos.mpr h1
  simp [octetEnd, ht, takeDigits_all p hp3, h0, h2, hp1, atEnd]

theorem ipPortMatch_join (a b c d : List Char)
    (ha : okOctet a) (hb : okOctet b) (hc : okOctet c) (hd : okOctet d) :
    ipPortMatch (ipJoin a b c d) = some (ipJoin a b c d, none) := by
  obtain ⟨ha1, ha2, ha3⟩ := ha
  obtain ⟨hb1, hb2, hb3⟩ := hb
  obtain ⟨hc1, hc2, hc3⟩ := hc
  obtain ⟨hd1, hd2, hd3⟩ := hd
  simp [ipPortMatch, ipJoin,
    octetDot_append a (b ++ '.' :: (c ++ '.' :: d)) ha1 ha2 ha3,
    octetDot_append b (c ++ '.' :: d) hb1 hb2 hb3,
    octetDot_append c d hc1 hc2 hc3,
    octetEnd_noport d hd1 hd2 hd3]

theorem ipPortMatch_joinPort (a b c d p : List Char)
    (ha : okOctet a) (hb : okOctet b) (hc : okOctet c) (hd : okOctet d)
    (hp1 : p ≠ []) (hp3 : ∀ ch ∈ p, ch.isDigit) :
    ipPortMatch (ipJoinPort a b c d p) = some (ipJoin a b c d, some p) := by
  obtain ⟨ha1, ha2, ha3⟩ := ha
  obtain ⟨hb1, hb2, hb3⟩ := hb
  obtain ⟨hc1, hc2, hc3⟩ := hc
  obtain ⟨hd1, hd2, hd3⟩ := hd
  simp [ipPortMatch, ipJoinPort, ipJoin,
    octetDot_append a (b ++ '.' :: (c ++ '.' :: (d ++ ':' :: p))) ha1 ha2 ha3,
    octetDot_append b (c ++ '.' :: (d ++ ':' :: p)) hb1 hb2 hb3,
    octetDot_append c (d ++ ':' :: p) hc1 hc2 hc3,
    octetEnd_port d p hd1 hd2 hd3 hp1 hp3]

/-- C6.  For a literal IPv4 address (one to three digits per octet, any
numeric value — out-of-range octets accepted), the resolver returns the
literal text as host, the parsed decimal port exactly when a suffix is
present, and no SRV fields; the result is the same for every DNS
oracle, so SRV discovery is never consulted. -/
theorem C6_ip_literal (a b c d p : List Char) (dns : String → DnsResult)
    (ha : okOctet a) (hb : okOctet b) (hc : okOctet c) (hd : okOctet d)
    (hp1 : p ≠ []) (hp2 : ∀ ch ∈ p, ch.isDigit) :
    parse_address dns (String.mk (ipJoin a b c d))
      = Except.ok ⟨String.mk (ipJoin a b c d), none, none, none⟩ ∧
    parse_address dns (String.mk (ipJoinPort a b c d p))
      = Except.ok ⟨String.mk (ipJoin a b c d), some (digitsVal p : Int), none, none⟩ := by
  constructor
  · unfold parse_address
    rw [show (String.mk (ipJoin a b c d)).data = ipJoin a b c d from rfl,
      ipPortMatch_join a b c d ha hb hc hd]
    rfl
  · unfold parse_address
    rw [show (String.mk (ipJoinPort a b c d p)).data = ipJoinPort a b c d p from rfl,
      ipPortMatch_joinPort a b c d p ha hb hc hd hp1 hp2]
    rfl

theorem C6_ip_literal_witness :
    parse_address (fun _ => DnsResult.noRecord)
        (String.mk (ipJoin ['9', '9', '9'] ['1'] ['2'] ['3']))
      = Except.ok ⟨String.mk (ipJoin ['9', '9', '9'] ['1'] ['2'] ['3']), none, none, none⟩ ∧
    parse_address (fun _ => DnsResult.noRecord)
        (String.mk (ipJoinPort ['9', '9', '9'] ['1'] ['2'] ['3'] ['7', '7', '7']))
      = Except.ok ⟨String.mk (ipJoin ['9', '9', '9'] ['1'] ['2'] ['3']),
          some (digitsVal ['7', '7', '7'] : Int), none, none⟩ :=
  C6_ip_literal ['9', '9', '9'] ['1'] ['2'] ['3'] ['7', '7', '7']
    (fun _ => DnsResult.noRecord)
    (by decide) (by decide) (by decide) (by decide) (by decide) (by decide)

theorem parse_address_error_iff (dns : String → DnsResult) (address : String) :
    parse_address dns address = Except.error () ↔
      ipPortMatch address.data = none ∧
        ((hasExplicitColon address = true ∧ colonPortRaises address) ∨
         (hasExplicitColon address = false ∧
            resolve_srv_record dns address = Except.error ())) := by
  unfold parse_address colonPortRaises
  cases h1 : ipPortMatch address.data with
  | some x =>
    obtain ⟨hs, ps⟩ := x
    simp
  | none =>
    cases h2 : hasExplicitColon address with
    | true =>
      cases h3 : splitOnChar ':' address.data with
      | nil => simp
      | cons p0 tail =>
        cases tail with
        | nil => simp
        | cons p1 rest =>
          cases h4 : pyInt p1 with
          | some n => simp [h4]
          | none => simp [h4]
    | false =>
      cases h5 : resolve_srv_record dns address with
      | ok tp => obtain ⟨t, p⟩ := tp; simp
      | error e => cases e; simp

theorem splitOnChar_ne_nil (sep : Char) (l : List Char) : splitOnChar sep l ≠ [] := by
  cases l with
  | nil => simp [splitOnChar]
  | cons c rest =>
    by_cases hc : c = sep
    · simp [splitOnChar, hc]
    · simp only [splitOnChar, hc, if_false]
      cases h : splitOnChar sep rest <;> simp

theorem splitOnChar_mem (sep : Char) (l : List Char) (h : sep ∈ l) :
    ∃ p0 p1 rest, splitOnChar sep l = p0 :: p1 :: rest := by
  induction l with
  | nil => simp at h
  | cons c tail ih =>
    by_cases hc : c = sep
    · subst hc
      cases hs : splitOnChar c tail with
      | nil => exact absurd hs (splitOnChar_ne_nil c tail)
      | cons q0 qs =>
        refine ⟨[], q0, qs, ?_⟩
        simp [splitOnChar, hs]
    · have hmem : sep ∈ tail := by
        rcases List.mem_cons.mp h with h1 | h1
        · exact absurd h1.symm hc
        · exact h1
      obtain ⟨p0, p1, rest, hs⟩ := ih hmem
      refine ⟨c :: p0, p1, rest, ?_⟩
      simp [splitOnChar, hc, hs]

/-- C7, amended.  The permissive parser is not total: it can raise —
the counterexample shows `int("abc")` raising `ValueError` on
`"host:abc"`.  It does yield an `AddressSpec` whenever neither failure
source is present: no DNS query reports a transport failure, and the
text between the first and second colon parses as an integer whenever
the explicit-port tier is taken.  (The hypotheses are stated with the
model's `pyInt`, which accepts a subset of what Python's `int`
accepts, so the statement is also sound for the program.) -/
theorem C7_amended_partial (dns : String → DnsResult) (address : String)
    (hdns : ∀ q, dns q ≠ DnsResult.transportError)
    (hport : ∀ p0 p1 rest, ipPortMatch address.data = none →
        hasExplicitColon address = true →
        splitOnChar ':' address.data = p0 :: p1 :: rest → pyInt p1 ≠ none) :
    ∃ spec, parse_address dns address = Except.ok spec := by
  cases hpa : parse_address dns address with
  | ok spec => exact ⟨spec, rfl⟩
  | error e =>
    cases e
    exfalso
    rcases (parse_address_error_iff dns address).mp hpa with ⟨h1, h2 | h2⟩
    · obtain ⟨hcolon, hraise⟩ := h2
      have hmem : ':' ∈ address.data := by
        unfold hasExplicitColon at hcolon
        rw [Bool.and_eq_true] at hcolon
        exact List.mem_of_elem_eq_true hcolon.1
      obtain ⟨p0, p1, rest, hs⟩ := splitOnChar_mem ':' address.data hmem
      unfold colonPortRaises at hraise
      rw [hs] at hraise
      exact hport p0 p1 rest h1 hcolon hs hraise
    · obtain ⟨_, hsrv⟩ := h2
      unfold resolve_srv_record at hsrv
      cases hq : dns ("_minecraft._tcp." ++ address) with
      | records rs =>
        rw [hq] at hsrv
        cases rs with
        | nil => simp at hsrv
        | cons hd tl =>
          obtain ⟨t, p⟩ := hd
          simp at hsrv
      | noRecord =>
        rw [hq] at hsrv
        simp at hsrv
      | transportError => exact hdns _ hq

theorem C7_amended_partial_witness :
    ∃ spec, parse_address (fun _ => DnsResult.noRecord) "host:25" = Except.ok spec :=
  C7_amended_partial (fun _ => DnsResult.noRecord) "host:25"
    (fun _ h => DnsResult.noConfusion h)
    (by
      intro p0 p1 rest h1 h2 h3
      have hs : splitOnChar ':' "host:25".data
          = [['h', 'o', 's', 't'], ['2', '5']] := by decide
      rw [hs] at h3
      injection h3 with h4 h5
      injection h5 with h6 h7
      rw [← h6]
      decide)

theorem getLast?_append_cons (A : List Char) (x : Char) (B : List Char) (hB : B ≠ []) :
    (A ++ x :: B).getLast? = B.getLast? := by
  rw [List.getLast?_append_of_ne_nil A (by simp)]
  rw [show x :: B = [x] ++ B from rfl, List.getLast?_append_of_ne_nil [x] hB]

theorem octetDot_decomp (l o r : List Char) (h : octetDot l = some (o, r)) :
    l = o ++ '.' :: r ∧ o ≠ [] := by
  unfold octetDot at h
  split at h
  case isTrue hc =>
    split at h
    case _ r2 heq =>
      rw [Option.some.injEq, Prod.mk.injEq] at h
      obtain ⟨ho, hr⟩ := h
      subst ho
      subst hr
      refine ⟨?_, ?_⟩
      · have hd := (takeDigits_decomp l).1
        rw [← heq]
        exact hd.symm
      · intro hnil
        rw [hnil] at hc
        simp at hc
    case _ => exact absurd h (by simp)
  case isFalse hc => exact absurd h (by simp)

theorem octetEnd_last (l o : List Char) (po : Option (List Char))
    (h : octetEnd l = some (o, po)) :
    ∃ c, l.getLast? = some c ∧ (c.isDigit = true ∨ c = '\n') := by
  have hd1 := (takeDigits_decomp l).1
  have hd2 := (takeDigits_decomp l).2
  unfold octetEnd at h
  split at h
  case isTrue hc =>
    split at h
    case _ r2 heq =>
      split at h
      case isTrue hcc =>
        obtain ⟨hpne, hend⟩ := hcc
        have hp := (takeDigits_decomp r2).1
        have hpd := (takeDigits_decomp r2).2
        rcases atEnd_cases _ hend with h0 | h0
        · have hr2e : r2 = (takeDigits r2).1 := by
            conv_lhs => rw [← hp]
            rw [h0, List.append_nil]
          have hl : l = (takeDigits l).1 ++ ':' :: (takeDigits r2).1 := by
            conv_lhs => rw [← hd1, heq, hr2e]
          obtain ⟨c, hc1, hc2⟩ := getLast_digit (takeDigits r2).1 hpne hpd
          refine ⟨c, ?_, Or.inl hc2⟩
          rw [hl, getLast?_append_cons _ _ _ hpne]
          exact hc1
        · have hr2e : r2 = (takeDigits r2).1 ++ ['\n'] := by
            conv_lhs => rw [← hp]
            rw [h0]
          have hl : l = (takeDigits l).1 ++ ':' :: ((takeDigits r2).1 ++ ['\n']) := by
            conv_lhs => rw [← hd1, heq, hr2e]
          refine ⟨'\n', ?_, Or.inr rfl⟩
          rw [hl, getLast?_append_cons _ _ _ (by simp),
            List.getLast?_append_of_ne_nil _ (by simp)]
          rfl
      case isFalse => exact absurd h (by simp)
    case _ =>
      split at h
      case isTrue hend =>
        rcases atEnd_cases _ hend with h0 | h0
        · have hne : (takeDigits l).1 ≠ [] := by
            intro hnil
            rw [hnil] at hc
            simp at hc
          obtain ⟨c, hc1, hc2⟩ := getLast_digit (takeDigits l).1 hne hd2
          refine ⟨c, ?_, Or.inl hc2⟩
          rw [← hd1, h0, List.append_nil]
          exact hc1
        · refine ⟨'\n', ?_, Or.inr rfl⟩
          rw [← hd1, h0, List.getLast?_append_of_ne_nil _ (by simp)]
          rfl
      case isFalse => exact absurd h (by simp)
  case isFalse hc => exact absurd h (by simp)

theorem ipPortMatch_last (l : List Char) (x : List Char × Option (List Char))
    (h : ipPortMatch l = some x) :
    ∃ c, l.getLast? = some c ∧ (c.isDigit = true ∨ c = '\n') := by
  unfold ipPortMatch at h
  split at h
  case _ => exact absurd h (by simp)
  case _ o1 r1 heq1 =>
    split at h
    case _ => exact absurd h (by simp)
    case _ o2 r2 heq2 =>
      split at h
      case _ => exact absurd h (by simp)
      case _ o3 r3 heq3 =>
        split at h
        case _ => exact absurd h (by simp)
        case _ o4 port heq4 =>
          obtain ⟨hl1, _⟩ := octetDot_decomp l o1 r1 heq1
          obtain ⟨hl2, _⟩ := octetDot_decomp r1 o2 r2 heq2
          obtain ⟨hl3, _⟩ := octetDot_decomp r2 o3 r3 heq3
          obtain ⟨c, hc1, hc2⟩ := octetEnd_last r3 o4 port heq4
          have hr3 : r3 ≠ [] := by
            intro hh
            rw [hh] at hc1
            simp at hc1
          refine ⟨c, ?_, hc2⟩
          rw [hl1, getLast?_append_cons _ _ _ (by rw [hl2]; simp),
            hl2, getLast?_append_cons _ _ _ (by rw [hl3]; simp),
            hl3, getLast?_append_cons _ _ _ hr3]
          exact hc1

/-- C8.  An address whose final character is a colon is not treated as
having an explicit port: the IPv4 regex cannot match it and the guard
`address[-1] != ":"` fails, so the resolver falls through to SRV
discovery with the whole address, trailing colon included, kept as the
host, and the returned port is absent. -/
theorem C8_trailing_colon (dns : String → DnsResult) (address : String)
    (t : Option String) (p : Option Int)
    (h : address.data.getLast? = some ':')
    (hdns : resolve_srv_record dns address = Except.ok (t, p)) :
    parse_address dns address = Except.ok ⟨address, none, t, p⟩ := by
  have hip : ipPortMatch address.data = none := by
    cases hm : ipPortMatch address.data with
    | none => rfl
    | some x =>
      obtain ⟨c, hc1, hc2⟩ := ipPortMatch_last address.data x hm
      rw [h, Option.some.injEq] at hc1
      subst hc1
      rcases hc2 with h2 | h2 <;> simp at h2
  have hcolon : hasExplicitColon address = false := by
    unfold hasExplicitColon
    rw [h]
    simp
  unfold parse_address
  rw [hip]
  simp only [hcolon, Bool.false_eq_true, if_false]
  rw [hdns]

theorem C8_trailing_colon_witness :
    parse_address (fun _ => DnsResult.noRecord) "host:"
      = Except.ok ⟨"host:", none, none, none⟩ :=
  C8_trailing_colon (fun _ => DnsResult.noRecord) "host:" none none (by decide) rfl

/-- C9.  Every successfully parsed `AddressSpec` with a populated SRV
target came from the SRV-discovery tier, which is only reached when no
explicit port was found; that tier always returns an absent port and
the original address as host. -/
theorem C9_srv_invariant (dns : String → DnsResult) (address : String) (spec : AddressSpec)
    (h : parse_address dns address = Except.ok spec) (hs : spec.srvTarget.isSome = true) :
    spec.port = none ∧ spec.host = address := by
  unfold parse_address at h
  split at h
  · rw [Except.ok.injEq] at h
    rw [← h] at hs
    simp at hs
  · split at h
    · split at h
      · split at h
        · rw [Except.ok.injEq] at h
          rw [← h] at hs
          simp at hs
        · exact absurd h (by simp)
      · exact absurd h (by simp)
    · split at h
      · rw [Except.ok.injEq] at h
        rw [← h]
        exact ⟨rfl, rfl⟩
      · exact absurd h (by simp)

theorem C9_srv_invariant_witness :
    (⟨"mc.example.com", none, some "play.example.com.", some 25565⟩ : AddressSpec).port
        = none ∧
    (⟨"mc.example.com", none, some "play.example.com.", some 25565⟩ : AddressSpec).host
        = "mc.example.com" :=
  C9_srv_invariant (fun _ => DnsResult.records [("play.example.com.", 25565)])
    "mc.example.com" ⟨"mc.example.com", none, some "play.example.com.", some 25565⟩ rfl rfl

end MCStatus
